import Mathlib

/-!
Verification of the Empirical_RA risk-metric core.

This file shallowly embeds the quantitative core of the repository
(`src/empirical_ra/risk/*.py`, `src/empirical_ra/core/portfolio.py`,
`src/empirical_ra/core/asset.py`, `src/empirical_ra/core/performance_analyzer.py`)
in Lean and proves properties of the embedded code.

Modelling conventions:
* Python/pandas floats are modelled as exact rationals (`ℚ`).
* A pandas `Series` of returns is a list of optional rationals; `none` stands
  for a missing value (`NaN`).  Boolean-mask selection (`s[s <= t]`) drops
  missing entries, exactly as `NaN` comparisons are false in pandas.
* A `DataFrame` of per-asset return columns is an ordered association list
  from column name to column, mirroring insertion-ordered `dict`/column order.
* Library routines whose values are irrational or nondeterministic
  (`NormalDist().inv_cdf`, `Series.std` (a square root), `np.sqrt`/`** 0.5`,
  `np.random.*`) are taken as opaque function parameters of the embedded
  definitions; everything rationally computable is computed exactly.
* Python exceptions (`raise ValueError(...)`) are modelled with `Except` or
  with an explicit error component, carrying the exact message string.
-/

/-- Series models a pandas Series of floats indexed positionally: a list of
optional rationals, where none is a missing value (NaN). -/
abbrev Series := List (Option ℚ)

/-- Pandas Series.dropna: the non-missing values, in order. -/
def dropna (s : Series) : List ℚ :=
  s.filterMap id

/-- Pandas boolean-mask selection s[s <= t]: missing values compare false and
are dropped, so the selection is the non-missing values that are ≤ t. -/
def selectLE (s : Series) (t : ℚ) : List ℚ :=
  (dropna s).filter (fun x => x ≤ t)

/-- Arithmetic mean of a list of rationals (pandas mean on a non-empty,
NaN-free selection).  On the empty list this is 0/0 = 0; callers that can see
an empty list either guard it or use meanOpt. -/
def listMean (l : List ℚ) : ℚ :=
  l.sum / l.length

/-- Pandas Series.mean with NaN result made explicit: none is the NaN returned
for an empty selection. -/
def meanOpt (l : List ℚ) : Option ℚ :=
  if l.isEmpty then none else some (listMean l)

/-- Pandas Series.mean: skips missing values. -/
def seriesMean (s : Series) : ℚ :=
  listMean (dropna s)

/-- Linear interpolation into a sorted list at a fractional position pos:
with i = ⌊pos⌋ and g = pos − i the value is v i + g·(v (i+1) − v i). -/
def interpolate (s : List ℚ) (pos : ℚ) : ℚ :=
  s.getD ((⌊pos⌋).toNat) 0 +
    (pos - ((⌊pos⌋ : ℤ) : ℚ)) * (s.getD ((⌊pos⌋).toNat + 1) 0 - s.getD ((⌊pos⌋).toNat) 0)

/-- Empirical quantile with the default linear interpolation of
pandas Series.quantile and np.quantile: interpolate into the ascending sort
of the values at position q·(n−1).  The 0 returned for an empty list stands
for the NaN pandas returns there. -/
def quantile (l : List ℚ) (q : ℚ) : ℚ :=
  let s := List.insertionSort (· ≤ ·) l
  if s.length = 0 then 0
  else interpolate s (q * ((s.length : ℚ) - 1))

/-- Python dict indexing d[k] on a String-keyed mapping of rationals.  The
default 0 is never reached by the embedded code paths proved below: the keys
looked up are always present (a missing key would be a Python KeyError). -/
def lookupD (l : List (String × ℚ)) (k : String) : ℚ :=
  (List.lookup k l).getD 0

/-- State of risk/var_base.py VaRCalculator (shared dataclass fields):
a portfolio return series, an optional DataFrame of per-asset return columns,
and a stored confidence level (default 0.95). -/
structure VaRState where
  portfolio_returns : Series
  asset_returns_df : Option (List (String × Series))
  confidence_level : ℚ

/-- risk/historical_var.py HistoricalVaRCalculator._calculate_empirical_quantile:
returns.dropna().quantile(1 - confidence). -/
def empirical_quantile (returns : Series) (confidence : ℚ) : ℚ :=
  quantile (dropna returns) (1 - confidence)

/-- risk/historical_var.py HistoricalVaRCalculator.calculate_var: the dict
with the negated empirical quantile of the portfolio series under key
"portfolio", then one entry per asset column. -/
def hist_calculate_var (st : VaRState) (confidence : ℚ) : List (String × ℚ) :=
  ("portfolio", -(empirical_quantile st.portfolio_returns confidence)) ::
    (match st.asset_returns_df with
     | none => []
     | some cols => cols.map (fun col => (col.1, -(empirical_quantile col.2 confidence))))

/-- risk/var_base.py VaRCalculator._scale_var_to_horizon:
abs(single_period_var) * np.sqrt(periods).  sqrtFn is the opaque square-root
routine (np.sqrt), a parameter because its values are irrational. -/
def scale_var_to_horizon (sqrtFn : ℕ → ℚ) (single_period_var : ℚ) (periods : ℕ) : ℚ :=
  |single_period_var| * sqrtFn periods

/-- risk/var_base.py VaRCalculator.calculate_var_for_horizons: computes the
single-period VaR mapping once at the stored confidence level, then scales
every entry to each requested horizon.  calcVar is the calculate_var method
of the concrete calculator (dynamic dispatch). -/
def calculate_var_for_horizons (sqrtFn : ℕ → ℚ) (calcVar : ℚ → List (String × ℚ))
    (confidence_level : ℚ) (horizons : List ℕ) : List (ℕ × List (String × ℚ)) :=
  horizons.map (fun h =>
    (h, (calcVar confidence_level).map (fun p => (p.1, scale_var_to_horizon sqrtFn p.2 h))))

/-- State of risk/parametric_var.py ParametricVaRCalculator: the shared fields
plus the optional supplied mean and std (0.0 is the unset sentinel). -/
structure ParametricVaRState where
  portfolio_returns : Series
  asset_returns_df : Option (List (String × Series))
  confidence_level : ℚ
  mean : ℚ
  std : ℚ

/-- risk/parametric_var.py ParametricVaRCalculator.calculate_var.
inv_cdf embeds statistics.NormalDist().inv_cdf (applied to 1 − confidence in
_get_normal_quantile) and stdFn embeds pandas Series.std; both are opaque
parameters because their values are irrational. -/
def parametric_calculate_var (inv_cdf : ℚ → ℚ) (stdFn : Series → ℚ)
    (st : ParametricVaRState) (confidence : ℚ) : List (String × ℚ) :=
  let z := inv_cdf (1 - confidence)
  let mean := if st.mean = 0 then seriesMean st.portfolio_returns else st.mean
  let std := if st.std = 0 then stdFn st.portfolio_returns else st.std
  ("portfolio", -(mean + z * std)) ::
    (match st.asset_returns_df with
     | none => []
     | some cols => cols.map (fun col => (col.1, -(seriesMean col.2 + z * stdFn col.2))))

/-- Modelled from the spec wording for claim C3: the mean actually used is the
explicitly supplied one when it is non-zero, otherwise the sample estimate. -/
def specEffectiveMean (supplied : ℚ) (series : Series) : ℚ :=
  if supplied ≠ 0 then supplied else seriesMean series

/-- Modelled from the spec wording for claim C3: the std actually used is the
explicitly supplied one when it is non-zero, otherwise the sample estimate. -/
def specEffectiveStd (stdFn : Series → ℚ) (supplied : ℚ) (series : Series) : ℚ :=
  if supplied ≠ 0 then supplied else stdFn series

/-- State of risk/cvar.py ConditionalVaRCalculator: the shared fields plus the
optional pluggable underlying VaR strategy, modelled by its calculate_var
method (confidence ↦ VaR mapping). -/
structure CVaRState where
  portfolio_returns : Series
  asset_returns_df : Option (List (String × Series))
  confidence_level : ℚ
  var_calculator : Option (ℚ → List (String × ℚ))

/-- risk/cvar.py ConditionalVaRCalculator._get_var_thresholds: the supplied
calculator when present, else a HistoricalVaRCalculator built on the same
series with confidence_level set to the requested confidence. -/
def get_var_thresholds (st : CVaRState) (confidence : ℚ) : List (String × ℚ) :=
  match st.var_calculator with
  | some supplied => supplied confidence
  | none => hist_calculate_var ⟨st.portfolio_returns, st.asset_returns_df, confidence⟩ confidence

/-- risk/cvar.py ConditionalVaRCalculator._calculate_mean_below_threshold:
below = returns[returns <= -abs(threshold)]; 0.0 when below is empty, else
its mean. -/
def mean_below_threshold (returns : Series) (threshold : ℚ) : ℚ :=
  let below := selectLE returns (-|threshold|)
  if below.isEmpty then 0 else listMean below

/-- risk/cvar.py ConditionalVaRCalculator.calculate_cvar: negated mean of
returns at or below the per-key VaR threshold, for "portfolio" and then each
asset column. -/
def cvar_calculate_cvar (st : CVaRState) (confidence : ℚ) : List (String × ℚ) :=
  let thresholds := get_var_thresholds st confidence
  ("portfolio", -(mean_below_threshold st.portfolio_returns (lookupD thresholds "portfolio"))) ::
    (match st.asset_returns_df with
     | none => []
     | some cols =>
       cols.map (fun col => (col.1, -(mean_below_threshold col.2 (lookupD thresholds col.1)))))

/-- risk/cvar.py ConditionalVaRCalculator.calculate_var: alias to
calculate_cvar for interface consistency. -/
def cvar_calculate_var (st : CVaRState) (confidence : ℚ) : List (String × ℚ) :=
  cvar_calculate_cvar st confidence

/-- risk/cvar.py ConditionalVaRCalculator.calculate_cvar_for_horizons:
base CVaR at the stored confidence level, each entry scaled by
abs(v) * h ** 0.5.  sqrtFn is the opaque square-root routine. -/
def cvar_calculate_cvar_for_horizons (sqrtFn : ℕ → ℚ) (st : CVaRState)
    (horizons : List ℕ) : List (ℕ × List (String × ℚ)) :=
  let base := cvar_calculate_cvar st st.confidence_level
  horizons.map (fun h => (h, base.map (fun p => (p.1, |p.2| * sqrtFn h))))

/-- State of risk/cvar_calc.py ConditionalVaRCalculator (the second CVaR
implementation).  Its var_calculator field exists but is never consulted:
_get_var_threshold always recomputes the historical quantile. -/
structure CVaR2State where
  portfolio_returns : Series
  asset_returns_df : Option (List (String × Series))
  confidence_level : ℚ
  var_calculator : Option (ℚ → List (String × ℚ))

/-- risk/cvar_calc.py ConditionalVaRCalculator._get_var_threshold:
returns.dropna().quantile(1 - confidence) (the raw quantile, not negated). -/
def cvar2_get_var_threshold (returns : Series) (confidence : ℚ) : ℚ :=
  quantile (dropna returns) (1 - confidence)

/-- risk/cvar_calc.py ConditionalVaRCalculator._calculate_mean_below_threshold:
returns[returns <= threshold].mean() with no emptiness guard; none is the NaN
mean of an empty selection. -/
def cvar2_mean_below_threshold (returns : Series) (threshold : ℚ) : Option ℚ :=
  meanOpt (selectLE returns threshold)

/-- risk/cvar_calc.py ConditionalVaRCalculator.calculate_cvar: negated
(possibly NaN) mean of returns at or below the raw quantile threshold, for
"portfolio" and then each asset column. -/
def cvar2_calculate_cvar (st : CVaR2State) (confidence : ℚ) : List (String × Option ℚ) :=
  ("portfolio",
      (cvar2_mean_below_threshold st.portfolio_returns
        (cvar2_get_var_threshold st.portfolio_returns confidence)).map (fun x => -x)) ::
    (match st.asset_returns_df with
     | none => []
     | some cols =>
       cols.map (fun col =>
         (col.1,
          (cvar2_mean_below_threshold col.2
            (cvar2_get_var_threshold col.2 confidence)).map (fun x => -x))))

/-- risk/cvar_calc.py ConditionalVaRCalculator.calculate_var: delegates to the
CVaR logic. -/
def cvar2_calculate_var (st : CVaR2State) (confidence : ℚ) : List (String × Option ℚ) :=
  cvar2_calculate_cvar st confidence

/-- risk/cvar_calc.py ConditionalVaRCalculator.calculate_cvar_for_horizons:
base CVaR at the stored confidence level, each entry scaled through
_scale_var_to_horizon (abs(v) * np.sqrt(h), NaN staying NaN). -/
def cvar2_calculate_cvar_for_horizons (sqrtFn : ℕ → ℚ) (st : CVaR2State)
    (horizons : List ℕ) : List (ℕ × List (String × Option ℚ)) :=
  let base := cvar2_calculate_cvar st st.confidence_level
  horizons.map (fun h => (h, base.map (fun p => (p.1, p.2.map (fun v => |v| * sqrtFn h)))))

/-- State of core/portfolio.py Portfolio relevant to the weight methods: the
weights dict as an insertion-ordered association list.  The price/return
caches and asset registry are not consulted by set_weights/get_weights and
are omitted. -/
structure Portfolio where
  weights : List (String × ℚ)

/-- Sum of the values of a weight mapping (sum(weights.values())). -/
def sumValues (w : List (String × ℚ)) : ℚ :=
  (w.map Prod.snd).sum

/-- core/portfolio.py Portfolio.set_weights: raises on an empty mapping, then
on a value sum off 1.0 by more than 1e-6, and only then replaces the stored
weights with a copy of the mapping.  The first component is the raised error
message (none on success); the second is the portfolio state afterwards,
unchanged when an error was raised before the assignment. -/
def set_weights (p : Portfolio) (w : List (String × ℚ)) : Option String × Portfolio :=
  if w.isEmpty then (some "Weights cannot be empty", p)
  else if 1/1000000 < |sumValues w - 1| then (some "Weights must sum to 1.0", p)
  else (none, { weights := w })

/-- core/portfolio.py Portfolio.get_weights: dict(self.weights). -/
def get_weights (p : Portfolio) : List (String × ℚ) :=
  p.weights

/-- Pandas Series.pct_change on a NaN-free price series: a leading missing
value, then cur/prev − 1 for each consecutive pair. -/
def pct_change (l : List ℚ) : List (Option ℚ) :=
  match l with
  | [] => []
  | _ :: _ => none :: ((l.zip l.tail).map (fun pr => some (pr.2 / pr.1 - 1)))

/-- Pandas resample(...).last() on a series tagged with calendar labels that
are non-decreasing in time: the last observation of each run of equal
labels. -/
def resampleLast : List (ℤ × ℚ) → List ℚ
  | [] => []
  | [(_, v)] => [v]
  | (a, v) :: (b, w) :: rest =>
    if a = b then resampleLast ((b, w) :: rest)
    else v :: resampleLast ((b, w) :: rest)

/-- State of core/asset.py Asset relevant to calculate_returns: the price
series values (NaN-free, per the data model) with the calendar month and year
label of each observation. -/
structure Asset where
  prices : List ℚ
  price_months : List ℤ
  price_years : List ℤ

/-- core/asset.py Asset.calculate_returns: raises when prices are empty, then
branches on the frequency string, computes simple percentage changes (after
calendar resampling for monthly/yearly) and drops missing values; unknown
frequencies raise. -/
def asset_calculate_returns (a : Asset) (frequency : String) : Except String (List ℚ) :=
  if a.prices.isEmpty then Except.error "Prices are not loaded"
  else if frequency = "daily" then Except.ok (dropna (pct_change a.prices))
  else if frequency = "monthly" then
    Except.ok (dropna (pct_change (resampleLast (a.price_months.zip a.prices))))
  else if frequency = "yearly" then
    Except.ok (dropna (pct_change (resampleLast (a.price_years.zip a.prices))))
  else Except.error "Unsupported frequency"

/-- TSeries models a timestamp-indexed pandas Series with strictly increasing,
duplicate-free dates (the data model of the repository) and no missing
values: a list of (date, value) pairs. -/
abbrev TSeries := List (ℤ × ℚ)

/-- Values of a timestamp-indexed series. -/
def tsValues (s : TSeries) : List ℚ :=
  s.map Prod.snd

/-- Pandas Series.mean on a timestamp-indexed series. -/
def tsMean (s : TSeries) : ℚ :=
  listMean (tsValues s)

/-- Pandas pd.concat([x, y], axis=1, join="inner") on series with unique
dates: the pairs of values at dates present in both. -/
def innerJoin (xs ys : TSeries) : List (ℚ × ℚ) :=
  xs.filterMap (fun p => (List.lookup p.1 ys).map (fun y => (p.2, y)))

/-- Pandas Series.cov on aligned pairs: sample covariance with ddof = 1.
For fewer than two pairs pandas yields NaN; here the 0-denominator division
yields 0, a case not exercised by the proofs below. -/
def covSample (pairs : List (ℚ × ℚ)) : ℚ :=
  let mx := listMean (pairs.map Prod.fst)
  let my := listMean (pairs.map Prod.snd)
  (pairs.map (fun p => (p.1 - mx) * (p.2 - my))).sum / ((pairs.length : ℚ) - 1)

/-- Pandas Series.var: sample variance with ddof = 1 (same NaN caveat as
covSample). -/
def varSample (l : List ℚ) : ℚ :=
  let m := listMean l
  (l.map (fun x => (x - m) ^ 2)).sum / ((l.length : ℚ) - 1)

/-- Pandas x.sub(y, fill_value=0.0): over the union of the two date sets,
value-minus-value with a missing side replaced by 0.  The output order used
here (x-dates then unmatched y-dates) differs from the sorted pandas index
but feeds only order-invariant reductions (mean, std). -/
def subFill (xs ys : TSeries) : List ℚ :=
  xs.map (fun p => p.2 - ((List.lookup p.1 ys).getD 0)) ++
    (ys.filter (fun p => (List.lookup p.1 xs) = none)).map (fun p => 0 - p.2)

/-- State of core/performance_analyzer.py PerformanceAnalyzer: optional
portfolio returns, optional per-asset return columns, risk-free rate, and
the optional benchmark return series. -/
structure PerformanceAnalyzerState where
  portfolio_returns : Option TSeries
  asset_returns_df : Option (List (String × TSeries))
  risk_free_rate : ℚ
  benchmark_returns : Option TSeries

/-- The error value returned by the benchmark-dependent metrics when the
benchmark (or the return data) is missing: Python returns the mapping
literal with single key "error" and this message; it is embedded as
Except.error of the message. -/
def benchmarkMissingMsg : String :=
  "benchmark_returns, asset_returns_df, or portfolio_returns not provided"

/-- core/performance_analyzer.py PerformanceAnalyzer.calculate_beta: the
error mapping when benchmark, asset table, or portfolio returns are missing;
otherwise cov/var of each series inner-joined with the benchmark, assets
first and "portfolio" last. -/
def calculate_beta (st : PerformanceAnalyzerState) : Except String (List (String × ℚ)) :=
  match st.benchmark_returns, st.asset_returns_df, st.portfolio_returns with
  | some bench, some cols, some pr =>
    let betas := cols.map (fun col =>
      let aligned := innerJoin col.2 bench
      (col.1, covSample aligned / varSample (aligned.map Prod.snd)))
    let alignedPort := innerJoin pr bench
    Except.ok (betas ++ [("portfolio", covSample alignedPort / varSample (alignedPort.map Prod.snd))])
  | _, _, _ => Except.error benchmarkMissingMsg

/-- core/performance_analyzer.py PerformanceAnalyzer.calculate_alpha: the
same missing-input guard, then CAPM alpha per key from the betas (whose own
error, were it reachable here, is propagated). -/
def calculate_alpha (st : PerformanceAnalyzerState) : Except String (List (String × ℚ)) :=
  match st.benchmark_returns, st.asset_returns_df, st.portfolio_returns with
  | some bench, some cols, some pr =>
    (match calculate_beta st with
     | Except.error e => Except.error e
     | Except.ok betas =>
       let benchmark_mean := tsMean bench
       let alphas := cols.map (fun col =>
         (col.1,
          tsMean col.2 -
            (st.risk_free_rate + lookupD betas col.1 * (benchmark_mean - st.risk_free_rate))))
       Except.ok (alphas ++
         [("portfolio",
           tsMean pr -
             (st.risk_free_rate + lookupD betas "portfolio" * (benchmark_mean - st.risk_free_rate)))]))
  | _, _, _ => Except.error benchmarkMissingMsg

/-- core/performance_analyzer.py PerformanceAnalyzer.calculate_treynor_ratio:
propagates a beta error; with betas at hand (which implies the data was
present) divides mean excess return by beta per key.  The empty mapping of
the residual None-guard of the source is kept verbatim. -/
def calculate_treynor_ratio (st : PerformanceAnalyzerState) : Except String (List (String × ℚ)) :=
  match calculate_beta st with
  | Except.error e => Except.error e
  | Except.ok betas =>
    match st.asset_returns_df, st.portfolio_returns with
    | some cols, some pr =>
      Except.ok
        ((cols.map (fun col =>
            (col.1, (tsMean col.2 - st.risk_free_rate) / lookupD betas col.1))) ++
          [("portfolio", (tsMean pr - st.risk_free_rate) / lookupD betas "portfolio")])
    | _, _ => Except.ok []

/-- core/performance_analyzer.py PerformanceAnalyzer.calculate_information_ratio:
the same missing-input guard, then mean/std of the active return (asset minus
benchmark with missing observations filled with zero) per key.  stdFn embeds
pandas Series.std, opaque because its values are irrational. -/
def calculate_information_ratio (stdFn : List ℚ → ℚ) (st : PerformanceAnalyzerState) :
    Except String (List (String × ℚ)) :=
  match st.benchmark_returns, st.asset_returns_df, st.portfolio_returns with
  | some bench, some cols, some pr =>
    Except.ok
      ((cols.map (fun col =>
          let active := subFill col.2 bench
          (col.1, listMean active / stdFn active))) ++
        [("portfolio",
          let pa := subFill pr bench
          listMean pa / stdFn pa)])
  | _, _, _ => Except.error benchmarkMissingMsg

/-- DataFrameQ models the pandas DataFrame consumed by the Monte Carlo
calculator: named columns and row-major data (one row per date). -/
structure DataFrameQ where
  cols : List String
  rows : List (List (Option ℚ))

/-- Pandas DataFrame.dropna: the rows with no missing entry. -/
def dfDropna (df : DataFrameQ) : List (List ℚ) :=
  df.rows.filterMap (fun r => r.mapM id)

/-- Pandas DataFrame.mean().values on complete rows: the column means in
column order. -/
def colMeans (rows : List (List ℚ)) (ncols : ℕ) : List ℚ :=
  (List.range ncols).map (fun j => listMean (rows.map (fun r => r.getD j 0)))

/-- Pandas DataFrame.cov().values on complete rows: the matrix of pairwise
sample covariances. -/
def covDF (rows : List (List ℚ)) (ncols : ℕ) : List (List ℚ) :=
  (List.range ncols).map (fun i =>
    (List.range ncols).map (fun j =>
      covSample (rows.map (fun r => (r.getD i 0, r.getD j 0)))))

/-- State of risk/monte_carlo_var.py MonteCarloVaRCalculator: the shared
fields plus simulation count, the optional supplied mean (0.0 sentinel) and
the optional supplied covariance matrix (empty sentinel). -/
structure MonteCarloState where
  portfolio_returns : Series
  asset_returns_df : Option DataFrameQ
  confidence_level : ℚ
  num_simulations : ℕ
  mean : ℚ
  covariance_matrix : List (List ℚ)

/-- risk/monte_carlo_var.py MonteCarloVaRCalculator.calculate_var.
normalDraws embeds np.random.normal(mean, std, n) and mvNormalDraws embeds
_generate_simulated_returns (np.random.multivariate_normal), both opaque
because the draws are nondeterministic; stdFn embeds pandas Series.std.
In the multi-asset branch each simulated return vector is aggregated by
sims.mean(axis=1), the unweighted arithmetic mean over the row, and only the
"portfolio" key is returned. -/
def mc_calculate_var (normalDraws : ℚ → ℚ → ℕ → List ℚ)
    (mvNormalDraws : List ℚ → List (List ℚ) → ℕ → List (List ℚ))
    (stdFn : Series → ℚ) (st : MonteCarloState) (confidence : ℚ) : List (String × ℚ) :=
  match st.asset_returns_df with
  | none =>
    let mean := if st.mean = 0 then seriesMean st.portfolio_returns else st.mean
    let std := stdFn st.portfolio_returns
    let sims := normalDraws mean std st.num_simulations
    [("portfolio", -(quantile sims (1 - confidence)))]
  | some df =>
    let rows := dfDropna df
    let mean_vec := colMeans rows df.cols.length
    let cov := if st.covariance_matrix.isEmpty then covDF rows df.cols.length
               else st.covariance_matrix
    let sims := mvNormalDraws mean_vec cov st.num_simulations
    let portfolio_sim := sims.map listMean
    [("portfolio", -(quantile portfolio_sim (1 - confidence)))]

/-! ### Helper lemmas -/

/-- The mean of a non-empty list of rationals is at most any common upper
bound of its entries. -/
theorem listMean_le_of_forall_le (l : List ℚ) (hne : l ≠ []) (t : ℚ)
    (h : ∀ x ∈ l, x ≤ t) : listMean l ≤ t := by
  have hlen : 0 < (l.length : ℚ) := by exact_mod_cast List.length_pos.mpr hne
  rw [listMean, div_le_iff₀ hlen]
  have hs := List.sum_le_card_nsmul l t h
  simpa [nsmul_eq_mul, mul_comm] using hs

/-- In a sorted list, entries are monotone in the index (via getD, for
in-range indices). -/
theorem sorted_getD_le_getD {s : List ℚ} (hs : s.Sorted (· ≤ ·)) {i j : ℕ}
    (hij : i ≤ j) (hj : j < s.length) : s.getD i 0 ≤ s.getD j 0 := by
  have hi : i < s.length := lt_of_le_of_lt hij hj
  rw [List.getD_eq_getElem s 0 hi, List.getD_eq_getElem s 0 hj]
  have := hs.rel_get_of_le (a := ⟨i, hi⟩) (b := ⟨j, hj⟩) hij
  simpa [List.get_eq_getElem] using this

/-- Interpolating into a sorted non-empty list at a position within range
never goes below the first (smallest) entry. -/
theorem getD_zero_le_interpolate (s : List ℚ) (hsort : s.Sorted (· ≤ ·))
    (_hne : 0 < s.length) (pos : ℚ) (h0 : 0 ≤ pos) (h1 : pos ≤ (s.length : ℚ) - 1) :
    s.getD 0 0 ≤ interpolate s pos := by
  have hfl0 : 0 ≤ ⌊pos⌋ := Int.floor_nonneg.mpr h0
  set i : ℕ := (⌊pos⌋).toNat with hidef
  have hicast : ((i : ℕ) : ℚ) = ((⌊pos⌋ : ℤ) : ℚ) := by
    rw [hidef]
    exact_mod_cast congrArg (fun z => ((z : ℤ) : ℚ)) (Int.toNat_of_nonneg hfl0)
  have hile : (i : ℚ) ≤ pos := by rw [hicast]; exact Int.floor_le pos
  have hin : i < s.length := by
    have hq : (i : ℚ) < (s.length : ℚ) := by linarith
    exact_mod_cast hq
  have hg0 : 0 ≤ pos - ((⌊pos⌋ : ℤ) : ℚ) := by
    have := Int.floor_le pos
    linarith
  by_cases hgz : pos - ((⌊pos⌋ : ℤ) : ℚ) = 0
  · have hbase := sorted_getD_le_getD hsort (Nat.zero_le i) hin
    rw [interpolate, hgz]
    simpa using hbase
  · have hglt : ((⌊pos⌋ : ℤ) : ℚ) < pos :=
      lt_of_le_of_ne (Int.floor_le pos) (by intro h; exact hgz (by linarith))
    have hi1 : i + 1 < s.length := by
      have h2 : (i : ℚ) < (s.length : ℚ) - 1 := by
        rw [hicast]; exact lt_of_lt_of_le hglt h1
      have h3 : ((i + 1 : ℕ) : ℚ) < (s.length : ℚ) := by push_cast; linarith
      exact_mod_cast h3
    have hmono := sorted_getD_le_getD hsort (Nat.le_succ i) hi1
    have hbase := sorted_getD_le_getD hsort (Nat.zero_le i) hin
    have hterm : 0 ≤ (pos - ((⌊pos⌋ : ℤ) : ℚ)) * (s.getD (i + 1) 0 - s.getD i 0) :=
      mul_nonneg hg0 (sub_nonneg.mpr hmono)
    rw [interpolate]
    linarith

/-- Some member of a non-empty list lies at or below its q-quantile, for
q in [0, 1]. -/
theorem exists_mem_le_quantile (l : List ℚ) (hl : l ≠ []) (q : ℚ)
    (hq0 : 0 ≤ q) (hq1 : q ≤ 1) : ∃ x ∈ l, x ≤ quantile l q := by
  set s := List.insertionSort (· ≤ ·) l with hs
  have hsort : s.Sorted (· ≤ ·) := List.sorted_insertionSort _ l
  have hperm : s.Perm l := List.perm_insertionSort _ l
  have hspos : 0 < s.length := by
    rw [hperm.length_eq]; exact List.length_pos.mpr hl
  have hsne : s.length ≠ 0 := Nat.pos_iff_ne_zero.mp hspos
  have hn1 : (1 : ℚ) ≤ (s.length : ℚ) := by exact_mod_cast hspos
  have hpos0 : 0 ≤ q * ((s.length : ℚ) - 1) := mul_nonneg hq0 (by linarith)
  have hposle : q * ((s.length : ℚ) - 1) ≤ (s.length : ℚ) - 1 := by
    have := mul_le_mul_of_nonneg_right hq1 (show (0:ℚ) ≤ (s.length : ℚ) - 1 by linarith)
    simpa using this
  have hquant : quantile l q = interpolate s (q * ((s.length : ℚ) - 1)) := by
    simp only [quantile, ← hs, if_neg hsne]
  refine ⟨s.getD 0 0, ?_, ?_⟩
  · have hmem : s.getD 0 0 ∈ s := by
      rw [List.getD_eq_getElem s 0 hspos]
      exact List.getElem_mem hspos
    exact hperm.mem_iff.mp hmem
  · rw [hquant]
    exact getD_zero_le_interpolate s hsort hspos _ hpos0 hposle

/-- Core tail inequality behind claim C1: for any return series with at least
one non-missing observation and any confidence in (0, 1), the (signed) CVaR
value computed by risk/cvar.py from the historical VaR threshold is at least
the historical VaR value. -/
theorem var_le_cvar_series (s : Series) (c : ℚ) (hc0 : 0 < c) (hc1 : c < 1)
    (hne : dropna s ≠ []) :
    -(empirical_quantile s c) ≤ -(mean_below_threshold s (-(empirical_quantile s c))) := by
  set q := quantile (dropna s) (1 - c) with hqdef
  have hEq : empirical_quantile s c = q := rfl
  rw [hEq, neg_le_neg_iff]
  have habs : -|(-q)| = -|q| := by rw [abs_neg]
  by_cases hql : q ≤ 0
  · have habs2 : -|(-q)| = q := by rw [habs, abs_of_nonpos hql]; ring
    obtain ⟨x, hxl, hxq⟩ :=
      exists_mem_le_quantile (dropna s) hne (1 - c) (by linarith) (by linarith)
    have hxmem : x ∈ selectLE s (-|(-q)|) := by
      rw [selectLE, List.mem_filter]
      exact ⟨hxl, by rw [habs2]; exact decide_eq_true hxq⟩
    have hbne : selectLE s (-|(-q)|) ≠ [] := List.ne_nil_of_mem hxmem
    simp only [mean_below_threshold]
    rw [if_neg (by simpa [List.isEmpty_iff] using hbne)]
    apply listMean_le_of_forall_le _ hbne
    intro y hy
    have h2 := (List.mem_filter.mp hy).2
    rw [habs2] at h2
    exact of_decide_eq_true h2
  · push_neg at hql
    have habs2 : -|(-q)| = -q := by rw [habs, abs_of_pos hql]
    simp only [mean_below_threshold]
    by_cases hb : (selectLE s (-|(-q)|)).isEmpty
    · rw [if_pos hb]; linarith
    · rw [if_neg (by simpa using hb)]
      have hbne : selectLE s (-|(-q)|) ≠ [] := by
        simpa [List.isEmpty_iff] using hb
      have hmean : listMean (selectLE s (-|(-q)|)) ≤ -q := by
        apply listMean_le_of_forall_le _ hbne
        intro y hy
        have h2 := (List.mem_filter.mp hy).2
        rw [habs2] at h2
        exact of_decide_eq_true h2
      linarith

/-- Looking up the key of the head entry of an association list. -/
theorem lookup_cons_self {α β : Type} [BEq α] [LawfulBEq α] (k : α) (b : β)
    (l : List (α × β)) : List.lookup k ((k, b) :: l) = some b := by
  simp [List.lookup]

/-- Looking up a key different from the head entry's key skips the head. -/
theorem lookup_cons_ne {α β : Type} [BEq α] [LawfulBEq α] {k a : α} (b : β)
    (l : List (α × β)) (h : k ≠ a) : List.lookup k ((a, b) :: l) = List.lookup k l := by
  have hb : (k == a) = false := beq_eq_false_iff_ne.mpr h
  simp [List.lookup, hb]

/-- In a value-building map over an association list with duplicate-free keys,
looking up the key of a member retrieves the value built from that member. -/
theorem lookup_map_self {β γ : Type} (f : String × β → γ) :
    ∀ (l : List (String × β)), (l.map Prod.fst).Nodup →
      ∀ p0 ∈ l, List.lookup p0.1 (l.map (fun p => (p.1, f p))) = some (f p0) := by
  intro l
  induction l with
  | nil => intro _ p0 h; simp at h
  | cons p tl ih =>
    intro hnd p0 hmem
    simp only [List.map_cons, List.nodup_cons] at hnd
    rcases List.mem_cons.mp hmem with rfl | htl
    · exact lookup_cons_self _ _ _
    · have hne : p0.1 ≠ p.1 := by
        intro he
        exact hnd.1 (he ▸ List.mem_map_of_mem Prod.fst htl)
      rw [List.map_cons, lookup_cons_ne _ _ hne]
      exact ih hnd.2 p0 htl

/-- A successful lookup in a value-building map over an association list comes
from some member with the looked-up key. -/
theorem lookup_map_mem {β γ : Type} (f : String × β → γ) :
    ∀ (l : List (String × β)) (k : String) (v : γ),
      List.lookup k (l.map (fun p => (p.1, f p))) = some v →
      ∃ p0 ∈ l, k = p0.1 ∧ v = f p0 := by
  intro l
  induction l with
  | nil => intro k v hv; simp [List.lookup] at hv
  | cons p tl ih =>
    intro k v hv
    by_cases hk : k = p.1
    · subst hk
      rw [List.map_cons, lookup_cons_self] at hv
      exact ⟨p, List.mem_cons_self _ _, rfl, (Option.some_inj.mp hv).symm⟩
    · rw [List.map_cons, lookup_cons_ne _ _ hk] at hv
      obtain ⟨p0, hp0, hkey, hval⟩ := ih k v hv
      exact ⟨p0, List.mem_cons_of_mem _ hp0, hkey, hval⟩

/-- The "portfolio" entry of the historical VaR mapping. -/
theorem hist_lookup_portfolio (pr : Series) (df : Option (List (String × Series)))
    (cl c : ℚ) :
    List.lookup "portfolio" (hist_calculate_var ⟨pr, df, cl⟩ c) =
      some (-(empirical_quantile pr c)) := by
  rw [hist_calculate_var]
  exact lookup_cons_self _ _ _

/-- The per-asset entries of the historical VaR mapping, under duplicate-free
column names none of which is the reserved "portfolio" key. -/
theorem hist_lookup_asset (pr : Series) (cols : List (String × Series)) (cl c : ℚ)
    (hnd : (cols.map Prod.fst).Nodup)
    (hport : "portfolio" ∉ cols.map Prod.fst)
    (p0 : String × Series) (hp0 : p0 ∈ cols) :
    List.lookup p0.1 (hist_calculate_var ⟨pr, some cols, cl⟩ c) =
      some (-(empirical_quantile p0.2 c)) := by
  have hne : p0.1 ≠ "portfolio" := by
    intro he
    exact hport (he ▸ List.mem_map_of_mem Prod.fst hp0)
  rw [hist_calculate_var]
  rw [lookup_cons_ne _ _ hne]
  exact lookup_map_self (fun p => -(empirical_quantile p.2 c)) cols hnd p0 hp0

/-- The "portfolio" entry of the risk/cvar.py CVaR mapping under the default
(historical) underlying calculator. -/
theorem cvar_lookup_portfolio (pr : Series) (df : Option (List (String × Series)))
    (cl c : ℚ) :
    List.lookup "portfolio" (cvar_calculate_cvar ⟨pr, df, cl, none⟩ c) =
      some (-(mean_below_threshold pr (-(empirical_quantile pr c)))) := by
  have hthr : lookupD (get_var_thresholds ⟨pr, df, cl, none⟩ c) "portfolio"
      = -(empirical_quantile pr c) := by
    rw [lookupD]
    simp only [get_var_thresholds]
    rw [hist_lookup_portfolio]
    rfl
  simp only [cvar_calculate_cvar]
  rw [hthr]
  exact lookup_cons_self _ _ _

/-- The per-asset entries of the risk/cvar.py CVaR mapping under the default
(historical) underlying calculator, duplicate-free column names, none of them
the reserved "portfolio" key. -/
theorem cvar_lookup_asset (pr : Series) (cols : List (String × Series)) (cl c : ℚ)
    (hnd : (cols.map Prod.fst).Nodup)
    (hport : "portfolio" ∉ cols.map Prod.fst)
    (p0 : String × Series) (hp0 : p0 ∈ cols) :
    List.lookup p0.1 (cvar_calculate_cvar ⟨pr, some cols, cl, none⟩ c) =
      some (-(mean_below_threshold p0.2 (-(empirical_quantile p0.2 c)))) := by
  have hne : p0.1 ≠ "portfolio" := by
    intro he
    exact hport (he ▸ List.mem_map_of_mem Prod.fst hp0)
  have hthr : lookupD (hist_calculate_var ⟨pr, some cols, c⟩ c) p0.1
      = -(empirical_quantile p0.2 c) := by
    rw [lookupD, hist_lookup_asset pr cols c c hnd hport p0 hp0]
    rfl
  simp only [cvar_calculate_cvar, get_var_thresholds]
  rw [lookup_cons_ne _ _ hne]
  have hmap : List.lookup p0.1
      (cols.map (fun col =>
        (col.1, -(mean_below_threshold col.2
          (lookupD (hist_calculate_var ⟨pr, some cols, c⟩ c) col.1))))) =
      some (-(mean_below_threshold p0.2
        (lookupD (hist_calculate_var ⟨pr, some cols, c⟩ c) p0.1))) :=
    lookup_map_self
      (fun p => -(mean_below_threshold p.2
        (lookupD (hist_calculate_var ⟨pr, some cols, c⟩ c) p.1))) cols hnd p0 hp0
  rw [hthr] at hmap
  exact hmap

/-- C1: for every return series (portfolio and per-asset columns, each with at
least one non-missing observation) and every confidence level c in (0,1), the
CVaR magnitude reported by ConditionalVaRCalculator.calculate_cvar(c)
(risk/cvar.py, default historical underlying calculator) for any key is at
least the VaR magnitude reported for the same key, series and confidence by
the underlying historical VaR calculator, within an absolute tolerance of
0.01 (the inequality in fact holds exactly). -/
theorem cvar_magnitude_ge_var_magnitude (st : CVaRState) (c : ℚ)
    (hc0 : 0 < c) (hc1 : c < 1)
    (hdefault : st.var_calculator = none)
    (hp : dropna st.portfolio_returns ≠ [])
    (ha : ∀ p ∈ st.asset_returns_df.getD [], dropna p.2 ≠ [])
    (hnd : ((st.asset_returns_df.getD []).map Prod.fst).Nodup)
    (hport : "portfolio" ∉ (st.asset_returns_df.getD []).map Prod.fst)
    (k : String) (v w : ℚ)
    (hv : List.lookup k (cvar_calculate_cvar st c) = some v)
    (hw : List.lookup k
      (hist_calculate_var ⟨st.portfolio_returns, st.asset_returns_df, c⟩ c) = some w) :
    w - 1/100 ≤ v := by
  obtain ⟨pr, df, cl, vc⟩ := st
  simp only at hdefault hp ha hnd hport hv hw
  subst hdefault
  by_cases hk : k = "portfolio"
  · subst hk
    rw [cvar_lookup_portfolio] at hv
    rw [hist_lookup_portfolio] at hw
    have hval : v = -(mean_below_threshold pr (-(empirical_quantile pr c))) :=
      (Option.some_inj.mp hv).symm
    have hwal : w = -(empirical_quantile pr c) := (Option.some_inj.mp hw).symm
    have hser := var_le_cvar_series pr c hc0 hc1 hp
    rw [hval, hwal]
    linarith
  · cases df with
    | none =>
      simp only [hist_calculate_var] at hw
      rw [lookup_cons_ne _ _ hk] at hw
      simp [List.lookup] at hw
    | some cols =>
      simp only [Option.getD_some] at ha hnd hport
      simp only [hist_calculate_var] at hw
      rw [lookup_cons_ne _ _ hk] at hw
      obtain ⟨p0, hp0, hkey, hval⟩ :=
        lookup_map_mem (fun p => -(empirical_quantile p.2 c)) cols k w hw
      subst hkey
      rw [cvar_lookup_asset pr cols cl c hnd hport p0 hp0] at hv
      have hv2 : v = -(mean_below_threshold p0.2 (-(empirical_quantile p0.2 c))) :=
        (Option.some_inj.mp hv).symm
      have hw2 : w = -(empirical_quantile p0.2 c) := hval
      have hser := var_le_cvar_series p0.2 c hc0 hc1 (ha p0 hp0)
      rw [hv2, hw2]
      linarith

/-- Witness for C1: on the concrete daily-return series
[0.01, −0.02, 0.015, −0.01, 0.005] at confidence 0.8, the CVaR magnitude is
0.02, the historical VaR magnitude is 0.012, and the claimed inequality holds
at this instance via the theorem. -/
theorem cvar_magnitude_ge_var_magnitude_witness :
    List.lookup "portfolio"
      (cvar_calculate_cvar
        ⟨[some (1/100), some (-1/50), some (3/200), some (-1/100), some (1/200)],
          none, 4/5, none⟩ (4/5)) = some (1/50) ∧
    List.lookup "portfolio"
      (hist_calculate_var
        ⟨[some (1/100), some (-1/50), some (3/200), some (-1/100), some (1/200)],
          none, 4/5⟩ (4/5)) = some (3/250) ∧
    (3/250 : ℚ) - 1/100 ≤ 1/50 := by
  have h2 : List.lookup "portfolio"
      (hist_calculate_var
        ⟨[some (1/100), some (-1/50), some (3/200), some (-1/100), some (1/200)],
          none, 4/5⟩ (4/5)) = some (3/250) := by
    norm_num [hist_calculate_var, empirical_quantile, dropna, quantile, interpolate,
      List.insertionSort, List.orderedInsert, List.lookup]
  have habs : |(3/250 : ℚ)| = 3/250 := by norm_num
  have h1 : List.lookup "portfolio"
      (cvar_calculate_cvar
        ⟨[some (1/100), some (-1/50), some (3/200), some (-1/100), some (1/200)],
          none, 4/5, none⟩ (4/5)) = some (1/50) := by
    norm_num [cvar_calculate_cvar, get_var_thresholds, hist_calculate_var,
      empirical_quantile, dropna, quantile, interpolate, List.insertionSort,
      List.orderedInsert, mean_below_threshold, selectLE, listMean, lookupD,
      List.lookup, List.filter, habs]
  exact ⟨h1, h2,
    cvar_magnitude_ge_var_magnitude
      ⟨[some (1/100), some (-1/50), some (3/200), some (-1/100), some (1/200)],
        none, 4/5, none⟩ (4/5)
      (by norm_num) (by norm_num) rfl
      (by simp [dropna]) (by simp) (by simp) (by simp)
      "portfolio" (1/50) (3/250) h1 h2⟩

/-- C2 counterexample: on the portfolio return series
[0.01, −0.02, 0.015, −0.01, 0.005] at confidence 0.8, the historical VaR for
"portfolio" is 0.012 (= 3/250), not the 0.02 the claim states. -/
theorem hist_var_scenario_counterexample :
    List.lookup "portfolio"
      (hist_calculate_var
        ⟨[some (1/100), some (-1/50), some (3/200), some (-1/100), some (1/200)],
          none, 4/5⟩ (4/5)) = some (3/250) ∧ (3/250 : ℚ) ≠ 1/50 := by
  constructor
  · norm_num [hist_calculate_var, empirical_quantile, dropna, quantile, interpolate,
      List.insertionSort, List.orderedInsert, List.lookup]
  · norm_num

/-- C2 amended: on the portfolio return series
[0.01, −0.02, 0.015, −0.01, 0.005] at confidence 0.8, the historical VaR for
"portfolio" (the negated linearly interpolated empirical 0.2-quantile) equals
0.012. -/
theorem hist_var_scenario_value :
    List.lookup "portfolio"
      (hist_calculate_var
        ⟨[some (1/100), some (-1/50), some (3/200), some (-1/100), some (1/200)],
          none, 4/5⟩ (4/5)) = some (3/250) := by
  norm_num [hist_calculate_var, empirical_quantile, dropna, quantile, interpolate,
    List.insertionSort, List.orderedInsert, List.lookup]

/-- C3: for every portfolio return series and confidence level c,
ParametricVaRCalculator.calculate_var(c) reports under "portfolio" the value
−(mean + z·std), where z is the (opaque) standard-normal inverse CDF at
(1 − c) and mean/std are the sample estimates unless an explicitly supplied
non-zero mean or std overrides the corresponding estimate. -/
theorem parametric_var_formula (inv_cdf : ℚ → ℚ) (stdFn : Series → ℚ)
    (st : ParametricVaRState) (c : ℚ) :
    List.lookup "portfolio" (parametric_calculate_var inv_cdf stdFn st c) =
      some (-(specEffectiveMean st.mean st.portfolio_returns +
        inv_cdf (1 - c) * specEffectiveStd stdFn st.std st.portfolio_returns)) := by
  have hmean : (if st.mean = 0 then seriesMean st.portfolio_returns else st.mean) =
      specEffectiveMean st.mean st.portfolio_returns := by
    by_cases hm : st.mean = 0 <;> simp [specEffectiveMean, hm]
  have hstd : (if st.std = 0 then stdFn st.portfolio_returns else st.std) =
      specEffectiveStd stdFn st.std st.portfolio_returns := by
    by_cases hs : st.std = 0 <;> simp [specEffectiveStd, hs]
  simp only [parametric_calculate_var, hmean, hstd]
  exact lookup_cons_self _ _ _

/-- C9: in both CVaR implementations (risk/cvar.py and risk/cvar_calc.py),
calculate_var returns exactly the same mapping as calculate_cvar on the same
state and confidence, so behind the common VaR interface callers receive
CVaR magnitudes. -/
theorem cvar_var_alias (st : CVaRState) (st2 : CVaR2State) (c : ℚ) :
    cvar_calculate_var st c = cvar_calculate_cvar st c ∧
    cvar2_calculate_var st2 c = cvar2_calculate_cvar st2 c :=
  ⟨rfl, rfl⟩

/-- Looking up a member key in the horizon-keyed map built over the horizon
list retrieves the value built from that horizon. -/
theorem lookup_horizon_map {γ : Type} (G : ℕ → γ) :
    ∀ (hs : List ℕ) (h : ℕ), h ∈ hs →
      List.lookup h (hs.map (fun x => (x, G x))) = some (G h) := by
  intro hs
  induction hs with
  | nil => intro h hh; simp at hh
  | cons a tl ih =>
    intro h hh
    by_cases hk : h = a
    · subst hk
      rw [List.map_cons]
      exact lookup_cons_self _ _ _
    · rcases List.mem_cons.mp hh with rfl | htl
      · exact absurd rfl hk
      · rw [List.map_cons, lookup_cons_ne _ _ hk]
        exact ih h htl

/-- Looking up a key in a map that rebuilds only the values of an association
list gives the mapped original lookup. -/
theorem lookup_map_value {α β γ : Type} [BEq α] [LawfulBEq α] (F : β → γ) :
    ∀ (l : List (α × β)) (k : α),
      List.lookup k (l.map (fun p => (p.1, F p.2))) = (List.lookup k l).map F := by
  intro l
  induction l with
  | nil => intro k; simp [List.lookup]
  | cons p tl ih =>
    intro k
    by_cases hk : k = p.1
    · subst hk
      rw [List.map_cons]
      obtain ⟨a, b⟩ := p
      rw [lookup_cons_self, lookup_cons_self]
      rfl
    · rw [List.map_cons, lookup_cons_ne _ _ hk, lookup_cons_ne _ _ hk]
      exact ih k

/-- C4: for every calculator, every single-period result value v per key, and
every horizon N in the requested list, the horizon-scaled value returned by
calculate_var_for_horizons (any calculate_var behind the common interface)
and by both calculate_cvar_for_horizons implementations equals |v|·√N, the
same square-root-of-time rule everywhere (sqrtFn is the opaque square-root
routine shared by all of them). -/
theorem horizon_scaling_rule (sqrtFn : ℕ → ℚ) (calcVar : ℚ → List (String × ℚ))
    (cl : ℚ) (horizons : List ℕ) (st : CVaRState) (st2 : CVaR2State)
    (h : ℕ) (hmem : h ∈ horizons) (k : String) :
    (∀ v, List.lookup k (calcVar cl) = some v →
      ∃ m, List.lookup h (calculate_var_for_horizons sqrtFn calcVar cl horizons) = some m ∧
        List.lookup k m = some (|v| * sqrtFn h)) ∧
    (∀ v, List.lookup k (cvar_calculate_cvar st st.confidence_level) = some v →
      ∃ m, List.lookup h (cvar_calculate_cvar_for_horizons sqrtFn st horizons) = some m ∧
        List.lookup k m = some (|v| * sqrtFn h)) ∧
    (∀ v, List.lookup k (cvar2_calculate_cvar st2 st2.confidence_level) = some (some v) →
      ∃ m, List.lookup h (cvar2_calculate_cvar_for_horizons sqrtFn st2 horizons) = some m ∧
        List.lookup k m = some (some (|v| * sqrtFn h))) := by
  refine ⟨?_, ?_, ?_⟩
  · intro v hv
    have hlv : List.lookup k
        ((calcVar cl).map (fun p => (p.1, scale_var_to_horizon sqrtFn p.2 h)))
        = (List.lookup k (calcVar cl)).map (fun y => scale_var_to_horizon sqrtFn y h) :=
      lookup_map_value (fun y => scale_var_to_horizon sqrtFn y h) (calcVar cl) k
    refine ⟨(calcVar cl).map (fun p => (p.1, scale_var_to_horizon sqrtFn p.2 h)), ?_, ?_⟩
    · show List.lookup h
          (horizons.map (fun x => (x, (calcVar cl).map
            (fun p => (p.1, scale_var_to_horizon sqrtFn p.2 x)))))
        = some ((calcVar cl).map (fun p => (p.1, scale_var_to_horizon sqrtFn p.2 h)))
      exact lookup_horizon_map
        (fun x => (calcVar cl).map (fun p => (p.1, scale_var_to_horizon sqrtFn p.2 x)))
        horizons h hmem
    · rw [hlv, hv]
      simp [scale_var_to_horizon]
  · intro v hv
    have hlv : List.lookup k
        ((cvar_calculate_cvar st st.confidence_level).map (fun p => (p.1, |p.2| * sqrtFn h)))
        = (List.lookup k (cvar_calculate_cvar st st.confidence_level)).map
            (fun y => |y| * sqrtFn h) :=
      lookup_map_value (fun y => |y| * sqrtFn h) (cvar_calculate_cvar st st.confidence_level) k
    refine ⟨(cvar_calculate_cvar st st.confidence_level).map
        (fun p => (p.1, |p.2| * sqrtFn h)), ?_, ?_⟩
    · show List.lookup h
          (horizons.map (fun x => (x, (cvar_calculate_cvar st st.confidence_level).map
            (fun p => (p.1, |p.2| * sqrtFn x)))))
        = some ((cvar_calculate_cvar st st.confidence_level).map
            (fun p => (p.1, |p.2| * sqrtFn h)))
      exact lookup_horizon_map
        (fun x => (cvar_calculate_cvar st st.confidence_level).map
          (fun p => (p.1, |p.2| * sqrtFn x))) horizons h hmem
    · rw [hlv, hv]
      rfl
  · intro v hv
    have hlv : List.lookup k
        ((cvar2_calculate_cvar st2 st2.confidence_level).map
          (fun p => (p.1, p.2.map (fun y => |y| * sqrtFn h))))
        = (List.lookup k (cvar2_calculate_cvar st2 st2.confidence_level)).map
            (fun o => o.map (fun y => |y| * sqrtFn h)) :=
      lookup_map_value (fun o => Option.map (fun y => |y| * sqrtFn h) o)
        (cvar2_calculate_cvar st2 st2.confidence_level) k
    refine ⟨(cvar2_calculate_cvar st2 st2.confidence_level).map
        (fun p => (p.1, p.2.map (fun y => |y| * sqrtFn h))), ?_, ?_⟩
    · show List.lookup h
          (horizons.map (fun x => (x, (cvar2_calculate_cvar st2 st2.confidence_level).map
            (fun p => (p.1, p.2.map (fun y => |y| * sqrtFn x))))))
        = some ((cvar2_calculate_cvar st2 st2.confidence_level).map
            (fun p => (p.1, p.2.map (fun y => |y| * sqrtFn h))))
      exact lookup_horizon_map
        (fun x => (cvar2_calculate_cvar st2 st2.confidence_level).map
          (fun p => (p.1, p.2.map (fun y => |y| * sqrtFn x)))) horizons h hmem
    · rw [hlv, hv]
      rfl

/-- Witness for C4: with the square-root routine instantiated at a concrete
function, a concrete calculator returning −5 for "portfolio", and horizon 4
from the list [4], the scaled entry is |−5|·sqrtFn 4. -/
theorem horizon_scaling_rule_witness :
    ∃ m, List.lookup 4
        (calculate_var_for_horizons (fun n => (n : ℚ))
          (fun _ => [("portfolio", -5)]) (1/2) [4]) = some m ∧
      List.lookup "portfolio" m = some (|(-5 : ℚ)| * (4 : ℕ)) := by
  have h := (horizon_scaling_rule (fun n => (n : ℚ)) (fun _ => [("portfolio", -5)])
    (1/2) [4] ⟨[], none, 1/2, none⟩ ⟨[], none, 1/2, none⟩ 4 (by simp) "portfolio").1
    (-5) (by rw [lookup_cons_self])
  exact h

/-- C5: set_weights fails exactly when the mapping is empty or its value sum
differs from 1.0 by more than 1e-6; on failure the stored weights are left
unchanged (the error is raised before the assignment), and on success
get_weights returns a mapping whose values sum to 1.0 within 1e-6. -/
theorem set_weights_validation (p : Portfolio) (w : List (String × ℚ)) :
    ((set_weights p w).1.isSome ↔ (w = [] ∨ 1/1000000 < |sumValues w - 1|)) ∧
    ((set_weights p w).1.isSome → (set_weights p w).2 = p) ∧
    ((set_weights p w).1 = none →
      |sumValues (get_weights (set_weights p w).2) - 1| ≤ 1/1000000) := by
  by_cases he : w.isEmpty
  · have hw : w = [] := by simpa [List.isEmpty_iff] using he
    subst hw
    exact ⟨iff_of_true rfl (Or.inl rfl), fun _ => rfl,
      fun hcontra => absurd hcontra (by simp [set_weights])⟩
  · have hw : ¬(w = []) := by simpa [List.isEmpty_iff] using he
    simp only [set_weights, if_neg he]
    by_cases hs : 1/1000000 < |sumValues w - 1|
    · rw [if_pos hs]
      exact ⟨iff_of_true rfl (Or.inr hs), fun _ => rfl,
        fun hcontra => absurd hcontra (by simp)⟩
    · rw [if_neg hs]
      refine ⟨iff_of_false (by simp) ?_, fun hcontra => absurd hcontra (by simp),
        fun _ => not_lt.mp hs⟩
      rintro (h1 | h2)
      · exact hw h1
      · exact hs h2

/-- Witness for C5: setting the weights {"A": 0.5, "B": 0.5} on an empty
portfolio succeeds, and the retrieved weights sum to 1.0 within 1e-6. -/
theorem set_weights_validation_witness :
    |sumValues (get_weights (set_weights ⟨[]⟩ [("A", 1/2), ("B", 1/2)]).2) - 1|
      ≤ 1/1000000 := by
  have hnone : (set_weights ⟨[]⟩ [("A", (1:ℚ)/2), ("B", 1/2)]).1 = none := by
    norm_num [set_weights, sumValues]
  exact (set_weights_validation ⟨[]⟩ [("A", 1/2), ("B", 1/2)]).2.2 hnone

/-- C6 counterexample: on a one-point price series the return transform does
not fail at all: it returns an empty return series. -/
theorem single_point_series_returns_ok :
    asset_calculate_returns ⟨[100], [0], [0]⟩ "daily" = Except.ok [] ∧
    ∀ e, asset_calculate_returns ⟨[100], [0], [0]⟩ "daily" ≠ Except.error e := by
  have h : asset_calculate_returns ⟨[100], [0], [0]⟩ "daily" = Except.ok [] := by
    simp [asset_calculate_returns, pct_change, dropna]
  exact ⟨h, fun e he => by rw [h] at he; exact Except.noConfusion he⟩

/-- C6 amended: the return transform fails (Prices are not loaded) exactly
when the source price series is empty, whatever the frequency; a one-point
source yields an empty daily return series without failing; and for a source
of length L ≥ 1 with no missing values the daily return series has exactly
L − 1 points. -/
theorem return_transform_length (a : Asset) :
    (a.prices = [] →
      ∀ f, asset_calculate_returns a f = Except.error "Prices are not loaded") ∧
    (a.prices ≠ [] →
      ∃ r, asset_calculate_returns a "daily" = Except.ok r ∧
        r.length = a.prices.length - 1) := by
  constructor
  · intro h f
    simp [asset_calculate_returns, h]
  · intro h
    have hne : a.prices.isEmpty = false := by simpa [List.isEmpty_iff] using h
    refine ⟨dropna (pct_change a.prices), ?_, ?_⟩
    · simp [asset_calculate_returns, hne]
    · have hlen : ∀ (l : List (ℚ × ℚ)),
          (List.filterMap id (l.map (fun pr => some (pr.2 / pr.1 - 1)))).length
            = l.length := by
        intro l
        induction l with
        | nil => simp
        | cons a tl ih => simp [List.filterMap_cons, ih]
      rcases hp : a.prices with _ | ⟨x, xs⟩
      · exact absurd hp h
      · simp only [hp, pct_change, dropna, List.filterMap_cons, id_eq,
          List.tail_cons]
        rw [hlen, List.length_zip]
        simp only [List.length_cons]
        omega

/-- Witness for C6: a two-point price series yields a one-point daily return
series via the theorem. -/
theorem return_transform_length_witness :
    ∃ r, asset_calculate_returns ⟨[100, 110], [0, 0], [0, 0]⟩ "daily" = Except.ok r ∧
      r.length = 1 := by
  have h := (return_transform_length ⟨[100, 110], [0, 0], [0, 0]⟩).2 (by simp)
  exact h

/-- C7: whenever the benchmark return series is absent, each of the
benchmark-dependent metrics (beta, alpha, Treynor ratio, information ratio)
returns the explicit error mapping (the spec's BenchmarkRequired) rather than
a partial, zero, or silently degraded result. -/
theorem benchmark_required_errors (stdFn : List ℚ → ℚ) (st : PerformanceAnalyzerState)
    (hb : st.benchmark_returns = none) :
    calculate_beta st = Except.error benchmarkMissingMsg ∧
    calculate_alpha st = Except.error benchmarkMissingMsg ∧
    calculate_treynor_ratio st = Except.error benchmarkMissingMsg ∧
    calculate_information_ratio stdFn st = Except.error benchmarkMissingMsg := by
  obtain ⟨pr, cols, rf, bench⟩ := st
  simp only at hb
  subst hb
  have hbeta : calculate_beta ⟨pr, cols, rf, none⟩ = Except.error benchmarkMissingMsg := by
    cases pr <;> cases cols <;> rfl
  refine ⟨hbeta, ?_, ?_, ?_⟩
  · cases pr <;> cases cols <;> rfl
  · rw [calculate_treynor_ratio, hbeta]
  · cases pr <;> cases cols <;> rfl

/-- Witness for C7: a concrete analyzer state with data present but no
benchmark, on which all four metrics return the error mapping. -/
theorem benchmark_required_errors_witness :
    calculate_beta ⟨some [(0, 1/100)], some [("A", [(0, 1/50)])], 0, none⟩
        = Except.error benchmarkMissingMsg ∧
    calculate_alpha ⟨some [(0, 1/100)], some [("A", [(0, 1/50)])], 0, none⟩
        = Except.error benchmarkMissingMsg ∧
    calculate_treynor_ratio ⟨some [(0, 1/100)], some [("A", [(0, 1/50)])], 0, none⟩
        = Except.error benchmarkMissingMsg ∧
    calculate_information_ratio (fun _ => 0)
        ⟨some [(0, 1/100)], some [("A", [(0, 1/50)])], 0, none⟩
        = Except.error benchmarkMissingMsg :=
  benchmark_required_errors (fun _ => 0)
    ⟨some [(0, 1/100)], some [("A", [(0, 1/50)])], 0, none⟩ rfl

/-- C8 counterexample: on returns [0.01, 0.02, 0.03] at confidence 0.95 no
observation lies at or below the negated VaR threshold; risk/cvar.py returns
the fallback 0.0, while risk/cvar_calc.py (which filters at the raw quantile
threshold instead) returns −0.01 — the two implementations disagree on this
empty-tail case. -/
theorem cvar_empty_tail_implementations_differ :
    List.lookup "portfolio"
      (cvar_calculate_cvar
        ⟨[some (1/100), some (1/50), some (3/100)], none, 19/20, none⟩ (19/20))
      = some 0 ∧
    List.lookup "portfolio"
      (cvar2_calculate_cvar
        ⟨[some (1/100), some (1/50), some (3/100)], none, 19/20, none⟩ (19/20))
      = some (some (-(1/100))) ∧
    (0 : ℚ) ≠ -(1/100) := by
  have habs : |(11/1000 : ℚ)| = 11/1000 := by norm_num
  refine ⟨?_, ?_, by norm_num⟩
  · norm_num [cvar_calculate_cvar, get_var_thresholds, hist_calculate_var,
      empirical_quantile, dropna, quantile, interpolate, List.insertionSort,
      List.orderedInsert, mean_below_threshold, selectLE, listMean, lookupD,
      List.lookup, List.filter, habs]
  · norm_num [cvar2_calculate_cvar, cvar2_get_var_threshold,
      cvar2_mean_below_threshold, meanOpt, selectLE, dropna, quantile,
      interpolate, List.insertionSort, List.orderedInsert, listMean,
      List.lookup, List.filter]

/-- C8 amended: whenever no return observation lies at or below the negated
absolute VaR threshold, risk/cvar.py ConditionalVaRCalculator.calculate_cvar
returns the deterministic fallback 0.0 for the portfolio key and does not
throw; the second implementation risk/cvar_calc.py does not agree on such
inputs (it selects at the raw quantile threshold and can return a different,
even negative, value — see the counterexample). -/
theorem cvar_empty_tail_fallback (st : CVaRState) (c : ℚ)
    (hempty : selectLE st.portfolio_returns
      (-|lookupD (get_var_thresholds st c) "portfolio"|) = []) :
    List.lookup "portfolio" (cvar_calculate_cvar st c) = some 0 := by
  have h0 : mean_below_threshold st.portfolio_returns
      (lookupD (get_var_thresholds st c) "portfolio") = 0 := by
    simp [mean_below_threshold, hempty]
  simp only [cvar_calculate_cvar, h0, neg_zero]
  exact lookup_cons_self _ _ _

/-- Witness for C8: the fallback theorem applied to the concrete all-positive
return series [0.01, 0.02, 0.03] at confidence 0.95, whose tail selection is
empty. -/
theorem cvar_empty_tail_fallback_witness :
    List.lookup "portfolio"
      (cvar_calculate_cvar
        ⟨[some (1/100), some (1/50), some (3/100)], none, 19/20, none⟩ (19/20))
      = some 0 := by
  have habs : |(11/1000 : ℚ)| = 11/1000 := by norm_num
  refine cvar_empty_tail_fallback
    ⟨[some (1/100), some (1/50), some (3/100)], none, 19/20, none⟩ (19/20) ?_
  norm_num [selectLE, dropna, lookupD, get_var_thresholds, hist_calculate_var,
    empirical_quantile, quantile, interpolate, List.insertionSort,
    List.orderedInsert, List.lookup, List.filter, habs]

/-- C10: in the multi-asset branch, MonteCarloVaRCalculator.calculate_var
aggregates each simulated return vector by its unweighted arithmetic mean
over the assets (row.sum / row.length — equal weights, no portfolio weights
are consulted; the state carries none) and returns a mapping containing only
the "portfolio" key, with no per-asset entries. -/
theorem mc_var_portfolio_only (normalDraws : ℚ → ℚ → ℕ → List ℚ)
    (mvNormalDraws : List ℚ → List (List ℚ) → ℕ → List (List ℚ))
    (stdFn : Series → ℚ) (st : MonteCarloState) (c : ℚ) (df : DataFrameQ)
    (hdf : st.asset_returns_df = some df) :
    mc_calculate_var normalDraws mvNormalDraws stdFn st c =
      [("portfolio",
        -(quantile
          ((mvNormalDraws (colMeans (dfDropna df) df.cols.length)
            (if st.covariance_matrix.isEmpty then covDF (dfDropna df) df.cols.length
             else st.covariance_matrix)
            st.num_simulations).map (fun row => row.sum / (row.length : ℚ)))
          (1 - c)))] := by
  obtain ⟨pr, adf, cl, n, m, cov⟩ := st
  simp only at hdf
  subst hdf
  simp only [mc_calculate_var]
  rw [show (listMean : List ℚ → ℚ) = fun row => row.sum / (row.length : ℚ) from rfl]

/-- Witness for C10: with one simulated two-asset return vector
[0.01, 0.02], the Monte Carlo result is the singleton mapping
portfolio ↦ −0.015 (the negated quantile of the single equal-weight mean). -/
theorem mc_var_portfolio_only_witness :
    mc_calculate_var (fun _ _ _ => []) (fun _ _ _ => [[(1:ℚ)/100, 1/50]]) (fun _ => 0)
      ⟨[], some ⟨["A", "B"], [[some 1, some 2]]⟩, 19/20, 1, 0, []⟩ (19/20)
      = [("portfolio", -(3/200))] := by
  have h := mc_var_portfolio_only (fun _ _ _ => []) (fun _ _ _ => [[(1:ℚ)/100, 1/50]])
    (fun _ => 0) ⟨[], some ⟨["A", "B"], [[some 1, some 2]]⟩, 19/20, 1, 0, []⟩ (19/20)
    ⟨["A", "B"], [[some 1, some 2]]⟩ rfl
  rw [h]
  norm_num [quantile, interpolate, List.insertionSort, List.orderedInsert]
